import Mathlib

/-!
# The osgEarth map data model (`src/osgEarth/Map.cpp`)

A shallow embedding of `osgEarth::Map`: the ordered layer vector `_layers`, the
data-model revision counter `_dataModelRevision`, and the observer list
`_mapCallbacks`, together with the operations that edit them.

Conventions of the embedding.

* A `Layer*` or `MapCallback*` is an address, a natural number, with `0` the null
  pointer.  `osg::ref_ptr` reference counting is not modelled.
* `unsigned` is a 32-bit machine word: every place where the source narrows a
  `size_t` to `unsigned`, or lets an `unsigned` counter run, is written with
  `toUnsigned` (reduction modulo `2^32`).
* `Revision` is declared outside this file.  It is modelled as a mathematical
  integer, so `++_dataModelRevision` is `+ 1` (signed overflow is not modelled).
* `MapModelChange` is declared outside this file.  A change is recorded as the
  list of arguments its constructor is called with; an argument that the call site
  omits is `none`.
* Observers are passive: `onMapModelChanged` is recorded as a delivery
  `(callback, change)` in the order in which the calls are made.  Every mutating
  operation returns the new map together with the deliveries it made.
* The calls made on the layer objects themselves (`setReadOptions`, `open`,
  `setTargetProfileHint`, `addCallback`, `removeCallback`) and
  `Registry::clearBlacklist` act on collaborators outside the map object and do not
  touch the three members above; they are not part of the state.
* The read/write mutex is not modelled (single-threaded use).
* The member `_profile` is kept apart from the three members above: it is written
  by `calculateProfile` only, which is modelled as a function from the value of
  `_profile` before the call to its value after the call.
-/

namespace osgEarth

/-- A `Layer*`; `0` is the null pointer. -/
abbrev LayerPtr := Nat

/-- The null `Layer*` (`0L`). -/
def nullLayer : LayerPtr := 0

/-- A `MapCallback*`; `0` is the null pointer. -/
abbrev MapCallbackPtr := Nat

/-- The null `MapCallback*`. -/
def nullCallback : MapCallbackPtr := 0

/-- Number of values of the C++ type `unsigned` (32 bits). -/
def UINT_RANGE : Nat := 4294967296

/-- Conversion of a non-negative value to `unsigned`. -/
def toUnsigned (n : Nat) : Nat := n % UINT_RANGE

/-- The value of `unsigned index = -1`. -/
def UINT_MINUS_ONE : Nat := 4294967295

/-- The `MapModelChange::ActionType` values used in `Map.cpp`. -/
inductive ActionType where
  | ADD_LAYER
  | REMOVE_LAYER
  | MOVE_LAYER
  | TOGGLE_ELEVATION_LAYER
  | BEGIN_BATCH_UPDATE
  | END_BATCH_UPDATE
  deriving DecidableEq, Repr

/-- A `MapModelChange` as constructed in `Map.cpp`: action, map revision, and the
optional layer, first index and second index arguments (`none` when the call site
does not pass the argument). -/
structure MapModelChange where
  action : ActionType
  revision : Int
  layer : Option LayerPtr
  firstIndex : Option Nat
  secondIndex : Option Nat
  deriving DecidableEq, Repr

/-- One call `cb->onMapModelChanged(change)`. -/
abbrev Delivery := MapCallbackPtr × MapModelChange

/-- The members of `Map` that hold the data model. -/
structure Map where
  _layers : List LayerPtr
  _dataModelRevision : Int
  _mapCallbacks : List MapCallbackPtr
  deriving DecidableEq, Repr

/-- The members of `MapFrame` that `Map::sync` reads and writes. -/
structure MapFrame where
  _initialized : Bool
  _mapDataModelRevision : Int
  _layers : List LayerPtr
  deriving DecidableEq, Repr

/-- The constructors `Map::Map()` and `Map::Map(const MapOptions&)`:
`_dataModelRevision(0)`, empty layer vector, empty callback list. -/
def Map.ctor : Map :=
  { _layers := [], _dataModelRevision := 0, _mapCallbacks := [] }

/-- The loop
`for (i = _mapCallbacks.begin(); i != _mapCallbacks.end(); i++)
   i->get()->onMapModelChanged(change);` -/
def notifyCallbacks (callbacks : List MapCallbackPtr) (change : MapModelChange) :
    List Delivery :=
  callbacks.map (fun cb => (cb, change))

/-- `std::vector::insert(begin() + pos, x)` for `pos` within the vector
(`pos ≤ size`). -/
def vectorInsert (v : List LayerPtr) (pos : Nat) (x : LayerPtr) : List LayerPtr :=
  v.take pos ++ x :: v.drop pos

/-- `Map::addMapCallback`. -/
def addMapCallback (m : Map) (cb : MapCallbackPtr) : Map :=
  if cb ≠ nullCallback then
    { m with _mapCallbacks := m._mapCallbacks ++ [cb] }
  else m

/-- `Map::removeMapCallback`: `std::find` then `erase` of the first match. -/
def removeMapCallback (m : Map) (cb : MapCallbackPtr) : Map :=
  { m with _mapCallbacks := m._mapCallbacks.erase cb }

/-- `Map::getDataModelRevision`. -/
def getDataModelRevision (m : Map) : Int := m._dataModelRevision

/-- `Map::notifyElevationLayerVisibleChanged`. -/
def notifyElevationLayerVisibleChanged (m : Map) (layer : LayerPtr) :
    Map × List Delivery :=
  let newRevision := m._dataModelRevision + 1
  ({ m with _dataModelRevision := newRevision },
   notifyCallbacks m._mapCallbacks
     ⟨ActionType.TOGGLE_ELEVATION_LAYER, newRevision, some layer, none, none⟩)

/-- `Map::beginUpdate`. -/
def beginUpdate (m : Map) : Map × List Delivery :=
  (m, notifyCallbacks m._mapCallbacks
        ⟨ActionType.BEGIN_BATCH_UPDATE, m._dataModelRevision, none, none, none⟩)

/-- `Map::endUpdate`. -/
def endUpdate (m : Map) : Map × List Delivery :=
  (m, notifyCallbacks m._mapCallbacks
        ⟨ActionType.END_BATCH_UPDATE, m._dataModelRevision, none, none, none⟩)

/-- `Map::addLayer`. -/
def addLayer (m : Map) (layer : LayerPtr) : Map × List Delivery :=
  if layer ≠ nullLayer then
    -- _layers.push_back( layer );
    let layers := m._layers ++ [layer]
    -- index = _layers.size() - 1;
    let index := toUnsigned (layers.length - 1)
    -- newRevision = ++_dataModelRevision;
    let newRevision := m._dataModelRevision + 1
    ({ m with _layers := layers, _dataModelRevision := newRevision },
     notifyCallbacks m._mapCallbacks
       ⟨ActionType.ADD_LAYER, newRevision, some layer, some index, none⟩)
  else (m, [])

/-- `Map::insertLayer`. -/
def insertLayer (m : Map) (layer : LayerPtr) (index : Nat) : Map × List Delivery :=
  if layer ≠ nullLayer then
    let layers :=
      if index ≥ m._layers.length then m._layers ++ [layer]
      else vectorInsert m._layers index layer
    let newRevision := m._dataModelRevision + 1
    ({ m with _layers := layers, _dataModelRevision := newRevision },
     notifyCallbacks m._mapCallbacks
       ⟨ActionType.ADD_LAYER, newRevision, some layer, some index, none⟩)
  else (m, [])

/-- The search loop shared by `Map::removeLayer` and `Map::moveLayer`:
`for (i = _layers.begin(); i != _layers.end(); i++, index++) if (i->get() == layer) break;`
walking the remaining elements from iterator offset `pos` with the `unsigned`
counter at `index`.  Returns the iterator offset of the first match (`none` when
the iterator reaches `end()`), and the value of the counter when the loop exits. -/
def findLoop (layer : LayerPtr) : List LayerPtr → Nat → Nat → Option Nat × Nat
  | [], _, index => (none, index)
  | x :: rest, pos, index =>
    if x = layer then (some pos, index)
    else findLoop layer rest (pos + 1) (toUnsigned (index + 1))

/-- `Map::removeLayer`.  `defaultRevision` is the value of the default-constructed
local `Revision newRevision;` (the type `Revision` is declared outside this file);
it is only read when no layer was erased. -/
def removeLayer (defaultRevision : Int) (m : Map) (layer : LayerPtr) :
    Map × List Delivery :=
  -- unsigned int index = -1;  if (layerToRemove.get()) { index = 0; for (...) ... }
  let search : Option Nat × Nat :=
    if layer ≠ nullLayer then findLoop layer m._layers 0 0 else (none, UINT_MINUS_ONE)
  let index := search.2
  match search.1 with
  | some pos =>
    -- _layers.erase( i ); newRevision = ++_dataModelRevision; break;
    let newRevision := m._dataModelRevision + 1
    ({ m with _layers := m._layers.eraseIdx pos, _dataModelRevision := newRevision },
     if newRevision ≥ 0 then
       notifyCallbacks m._mapCallbacks
         ⟨ActionType.REMOVE_LAYER, newRevision, some layer, some index, none⟩
     else [])
  | none =>
    (m,
     if defaultRevision ≥ 0 then
       notifyCallbacks m._mapCallbacks
         ⟨ActionType.REMOVE_LAYER, defaultRevision, some layer, some index, none⟩
     else [])

/-- `Map::moveLayer`.  The result is `none` when
`_layers.insert( _layers.begin() + newIndex, ... )` is called with an iterator past
the end of the vector (undefined behaviour in C++). -/
def moveLayer (m : Map) (layer : LayerPtr) (newIndex : Nat) :
    Option (Map × List Delivery) :=
  if layer ≠ nullLayer then
    let search := findLoop layer m._layers 0 0
    match search.1 with
    | none => some (m, [])  -- return; layer not found in list
    | some pos =>
      let oldIndex := search.2
      let erased := m._layers.eraseIdx pos
      if newIndex ≤ erased.length then
        let layers := vectorInsert erased newIndex layer
        let newRevision := m._dataModelRevision + 1
        some ({ m with _layers := layers, _dataModelRevision := newRevision },
              notifyCallbacks m._mapCallbacks
                ⟨ActionType.MOVE_LAYER, newRevision, some layer, some oldIndex,
                  some newIndex⟩)
      else none
  else some (m, [])

/-- `Map::getLayers`: appends the layers to `out_list`, returns the revision. -/
def getLayers (m : Map) (out_list : List LayerPtr) : List LayerPtr × Int :=
  (out_list ++ m._layers, m._dataModelRevision)

/-- `Map::getNumLayers`: `_layers.size()` returned as `unsigned`. -/
def getNumLayers (m : Map) : Nat := toUnsigned m._layers.length

/-- `Map::getLayerAt`.  In `index < (int)_layers.size()` the right-hand side is
converted back to `unsigned` for the comparison. -/
def getLayerAt (m : Map) (index : Nat) : LayerPtr :=
  if index < toUnsigned m._layers.length then m._layers.getD index nullLayer
  else nullLayer

/-- The loop of `Map::getIndexOfLayer`,
`for (; index < _layers.size(); ++index) if (_layers[index] == layer) break;`
with the `unsigned` counter at `index`, run for at most `fuel` tests of the loop
condition; `none` when the fuel is used up. -/
def getIndexOfLayer.loop (layers : List LayerPtr) (layer : LayerPtr) :
    Nat → Nat → Option Nat
  | 0, _ => none
  | fuel + 1, index =>
    if index < layers.length then
      if layers.getD index nullLayer = layer then some index
      else getIndexOfLayer.loop layers layer fuel (toUnsigned (index + 1))
    else some index

/-- `Map::getIndexOfLayer`.  The counter visits `0, 1, 2, ...`; a run that ends does
so after at most `size + 1` tests of the loop condition, and a run in which the
counter wraps around never ends, so `size + 1` is enough fuel and `none` stands for
a loop that does not terminate. -/
def getIndexOfLayer (m : Map) (layer : LayerPtr) : Option Nat :=
  getIndexOfLayer.loop m._layers layer (m._layers.length + 1) 0

/-- `Map::clear`. -/
def clear (m : Map) : Map × List Delivery :=
  -- layersRemoved.swap( _layers );
  let layersRemoved := m._layers
  let newRevision := m._dataModelRevision + 1
  ({ m with _layers := [], _dataModelRevision := newRevision },
   (m._mapCallbacks.map (fun cb =>
      layersRemoved.map (fun layer =>
        ((cb, ⟨ActionType.REMOVE_LAYER, newRevision, some layer, none, none⟩) :
          Delivery)))).flatten)

/-- The loop `for (i = layers.begin(); i != layers.end(); ++i) addLayer(i->get());`
of `Map::setLayersFromMap`. -/
def setLayersFromMap.addAll : Map → List LayerPtr → Map × List Delivery
  | m, [] => (m, [])
  | m, layer :: rest =>
    let r := addLayer m layer
    let r2 := setLayersFromMap.addAll r.1 rest
    (r2.1, r.2 ++ r2.2)

/-- `Map::setLayersFromMap` called on `m` with argument `map`, where `none` is the
null pointer and `some src` points to a map object other than `m`.  Returns the
new state of `m`, the state of the argument map after the call (it is only read,
through `getLayers`), and the deliveries made to the callbacks of `m`. -/
def setLayersFromMap (m : Map) (map : Option Map) :
    Map × Option Map × List Delivery :=
  let c := clear m
  match map with
  | none => (c.1, none, c.2)
  | some src =>
    let layers := (getLayers src []).1
    let r := setLayersFromMap.addAll c.1 layers
    (r.1, some src, c.2 ++ r.2)

/-- `Map::sync`: the returned flag and the frame after the call. -/
def sync (m : Map) (frame : MapFrame) : Bool × MapFrame :=
  if frame._mapDataModelRevision ≠ m._dataModelRevision ∨ frame._initialized = false then
    -- frame._layers.clear(); std::copy(_layers.begin(), _layers.end(), back_inserter)
    (true, { frame with _layers := [] ++ m._layers,
                        _initialized := true,
                        _mapDataModelRevision := m._dataModelRevision })
  else (false, frame)

/-- A map together with one `MapFrame` that follows it. -/
structure MapAndFrame where
  map : Map
  frame : MapFrame
  deriving DecidableEq, Repr

/-- The public operations of `Map` that read or write the layer list, the revision
or the callback list; `sync` is applied to the frame of the `MapAndFrame`. -/
inductive MapOp where
  | addLayer (layer : LayerPtr)
  | insertLayer (layer : LayerPtr) (index : Nat)
  | removeLayer (layer : LayerPtr)
  | moveLayer (layer : LayerPtr) (newIndex : Nat)
  | clear
  | setLayersFromMap (map : Option Map)
  | notifyElevationLayerVisibleChanged (layer : LayerPtr)
  | beginUpdate
  | endUpdate
  | addMapCallback (cb : MapCallbackPtr)
  | removeMapCallback (cb : MapCallbackPtr)
  | getDataModelRevision
  | getLayers
  | getNumLayers
  | getLayerAt (index : Nat)
  | getIndexOfLayer (layer : LayerPtr)
  | getLayerByName
  | getLayerByUID
  | getProfile
  | sync
  deriving Repr

/-- One public call on the map.  The `const` getters leave the state as it is (the
value they return plays no part here); `getProfile` may run `calculateProfile`,
which writes only `_profile` and `_profileNoVDatum`, members that are not among
those of `Map` above; `none` is the undefined behaviour of `moveLayer`. -/
def step (defaultRevision : Int) (s : MapAndFrame) : MapOp → Option MapAndFrame
  | MapOp.addLayer layer => some { s with map := (addLayer s.map layer).1 }
  | MapOp.insertLayer layer index => some { s with map := (insertLayer s.map layer index).1 }
  | MapOp.removeLayer layer =>
    some { s with map := (removeLayer defaultRevision s.map layer).1 }
  | MapOp.moveLayer layer newIndex =>
    (moveLayer s.map layer newIndex).map (fun r => { s with map := r.1 })
  | MapOp.clear => some { s with map := (clear s.map).1 }
  | MapOp.setLayersFromMap map => some { s with map := (setLayersFromMap s.map map).1 }
  | MapOp.notifyElevationLayerVisibleChanged layer =>
    some { s with map := (notifyElevationLayerVisibleChanged s.map layer).1 }
  | MapOp.beginUpdate => some { s with map := (beginUpdate s.map).1 }
  | MapOp.endUpdate => some { s with map := (endUpdate s.map).1 }
  | MapOp.addMapCallback cb => some { s with map := addMapCallback s.map cb }
  | MapOp.removeMapCallback cb => some { s with map := removeMapCallback s.map cb }
  | MapOp.getDataModelRevision => some s
  | MapOp.getLayers => some s
  | MapOp.getNumLayers => some s
  | MapOp.getLayerAt _ => some s
  | MapOp.getIndexOfLayer _ => some s
  | MapOp.getLayerByName => some s
  | MapOp.getLayerByUID => some s
  | MapOp.getProfile => some s
  | MapOp.sync => some { s with frame := (sync s.map s.frame).2 }

/-- A sequence of public calls, one after the other. -/
def run (defaultRevision : Int) : MapAndFrame → List MapOp → Option MapAndFrame
  | s, [] => some s
  | s, op :: ops => (step defaultRevision s op).bind (fun s' => run defaultRevision s' ops)

/-- The changes that callback `cb` receives in a sequence of deliveries, in the
order in which it receives them. -/
def changesReceivedBy (cb : MapCallbackPtr) (deliveries : List Delivery) :
    List MapModelChange :=
  (deliveries.filter (fun d => d.1 = cb)).map Prod.snd

/-- Position `i` is the first position of `layers` that holds `layer`. -/
def IsFirstOccurrence (layers : List LayerPtr) (layer : LayerPtr) (i : Nat) : Prop :=
  layers[i]? = some layer ∧ ∀ j, j < i → layers[j]? ≠ some layer

/-! ### Profile inference (`Map::calculateProfile`)

`Profile`, `SpatialReference`, `TileSource`, `TerrainLayer`, `MapOptions` and
`Registry` are declared outside `Map.cpp`.  What `calculateProfile` observes of
them is recorded below: the answers of the profile and SRS predicates as fields of
the profile object, and the remaining collaborators as parameters. -/

/-- The values of `MapOptions::coordSysType()` that `calculateProfile` tells apart. -/
inductive CoordinateSystemType where
  | CSTYPE_GEOCENTRIC
  | CSTYPE_GEOCENTRIC_CUBE
  | CSTYPE_PROJECTED
  deriving DecidableEq, Repr

/-- A `Profile` object as `calculateProfile` sees it: its address and the answers
of `isOK()`, `getSRS()->isGeographic()`, `getSRS()->isCube()` and
`getSRS()->isProjected()`. -/
structure Profile where
  address : Nat
  isOK : Bool
  srsIsGeographic : Bool
  srsIsCube : Bool
  srsIsProjected : Bool
  deriving DecidableEq, Repr

/-- A `ProfileOptions` value (the content is not examined by `Map.cpp`). -/
abbrev ProfileOptions := Nat

/-- A `TileSource` object: the (nullable) result of `getProfile()`. -/
structure TileSource where
  getProfile : Option Profile
  deriving DecidableEq, Repr

/-- A layer object: whether `dynamic_cast<TerrainLayer*>` succeeds on it, and the
(nullable) result of `getTileSource()`. -/
structure LayerObject where
  isTerrainLayer : Bool
  getTileSource : Option TileSource
  deriving DecidableEq, Repr

/-- The two members of `_mapOptions` read by `calculateProfile`: `coordSysType()`
and the optional `profile()` (`none` when `isSet()` is false). -/
structure MapOptions where
  coordSysType : CoordinateSystemType
  profile : Option ProfileOptions
  deriving DecidableEq, Repr

/-- The collaborators of `calculateProfile`: the layer object behind each
`Layer*`, `Profile::create(const ProfileOptions&)`, the two registry profiles
(`Registry::getGlobalGeodeticProfile()`, `Registry::getCubeProfile()`), and the
equirectangular profile that lines 698-702 build from a geographic profile. -/
structure Collaborators where
  layerObject : LayerPtr → LayerObject
  profileCreate : ProfileOptions → Option Profile
  getGlobalGeodeticProfile : Option Profile
  getCubeProfile : Option Profile
  createEquirectangular : Profile → Option Profile

/-- The test `_profile.valid() && _profile->getSRS()->isX()`. -/
def validWithSRS (isX : Profile → Bool) : Option Profile → Bool
  | some p => isX p
  | none => false

/-- The tile source seen by the loop body of lines 675-676:
`dynamic_cast<TerrainLayer*>(i->get())` (null for a null pointer or a layer of
another kind) followed by `terrainLayer->getTileSource()`. -/
def calculateProfile.tileSourceOf (env : Collaborators) (layer : LayerPtr) :
    Option TileSource :=
  if layer ≠ nullLayer ∧ (env.layerObject layer).isTerrainLayer = true then
    (env.layerObject layer).getTileSource
  else none

/-- The local `userProfile` of lines 607-611. -/
def calculateProfile.userProfile (env : Collaborators) (opts : MapOptions) :
    Option Profile :=
  match opts.profile with
  | some po => env.profileCreate po
  | none => none

/-- The value of `_profile` after lines 613-666, entered with `_profile` null:
the user profile if it passes the test of the coordinate-system type. -/
def calculateProfile.acceptUserProfile (env : Collaborators) (opts : MapOptions) :
    Option Profile :=
  match calculateProfile.userProfile env opts with
  | none => none
  | some userProfile =>
    match opts.coordSysType with
    | CoordinateSystemType.CSTYPE_GEOCENTRIC =>
      if userProfile.isOK && userProfile.srsIsGeographic then some userProfile else none
    | CoordinateSystemType.CSTYPE_GEOCENTRIC_CUBE =>
      if userProfile.isOK && userProfile.srsIsCube then some userProfile else none
    | CoordinateSystemType.CSTYPE_PROJECTED =>
      if userProfile.isOK && userProfile.srsIsProjected then some userProfile else none

/-- The loop of lines 673-680 over the remaining layers, with the current value
of `_profile`:
`if (terrainLayer && terrainLayer->getTileSource())
   _profile = terrainLayer->getTileSource()->getProfile();` -/
def calculateProfile.searchTileSources (env : Collaborators) :
    List LayerPtr → Option Profile → Option Profile
  | [], _profile => _profile
  | layer :: rest, _profile =>
    match calculateProfile.tileSourceOf env layer with
    | some tileSource =>
      calculateProfile.searchTileSources env rest tileSource.getProfile
    | none => calculateProfile.searchTileSources env rest _profile

/-- The `if / else if` chain of lines 685-708 applied to the current `_profile`. -/
def calculateProfile.ensureKind (env : Collaborators) (opts : MapOptions)
    (_profile : Option Profile) : Option Profile :=
  if opts.coordSysType = CoordinateSystemType.CSTYPE_GEOCENTRIC ∧
      ¬ (validWithSRS Profile.srsIsGeographic _profile = true) then
    env.getGlobalGeodeticProfile
  else if opts.coordSysType = CoordinateSystemType.CSTYPE_GEOCENTRIC_CUBE ∧
      ¬ (validWithSRS Profile.srsIsCube _profile = true) then
    env.getCubeProfile
  else if opts.coordSysType = CoordinateSystemType.CSTYPE_PROJECTED ∧
      validWithSRS Profile.srsIsGeographic _profile = true then
    match _profile with
    | some p => env.createEquirectangular p
    | none => none
  else if opts.coordSysType = CoordinateSystemType.CSTYPE_PROJECTED ∧
      ¬ (validWithSRS Profile.srsIsProjected _profile = true) then
    none
  else _profile

/-- `Map::calculateProfile`, as far as the member `_profile` goes: its value after
the call, given its value before.  The rest of the method (the
`onMapInfoEstablished` calls, the target-profile hints given to the layers and
`_profileNoVDatum`) does not write `_profile`. -/
def calculateProfile (env : Collaborators) (opts : MapOptions) (m : Map)
    (_profile : Option Profile) : Option Profile :=
  match _profile with
  | some p => some p  -- if ( !_profile.valid() ) is false
  | none =>
    let afterUser := calculateProfile.acceptUserProfile env opts
    let afterSearch :=
      match afterUser with
      | some p => some p
      | none => calculateProfile.searchTileSources env m._layers none
    calculateProfile.ensureKind env opts afterSearch

/-- Where a profile adopted by `calculateProfile` can come from: `p` is the
user-configured profile and is OK, or `p` is the profile of the tile source of a
terrain layer held by the map. -/
def calculateProfile.IsCandidate (env : Collaborators) (opts : MapOptions) (m : Map)
    (p : Profile) : Prop :=
  (calculateProfile.userProfile env opts = some p ∧ p.isOK = true) ∨
  ∃ layer ∈ m._layers, ∃ tileSource,
    calculateProfile.tileSourceOf env layer = some tileSource ∧
    tileSource.getProfile = some p

/-- An example profile object at `address`: OK, with a geographic SRS. -/
def geographicProfileAt (address : Nat) : Profile :=
  { address := address, isOK := true, srsIsGeographic := true,
    srsIsCube := false, srsIsProjected := false }

/-- An example heap: layers 1 and 2 are terrain layers whose tile sources have the
geographic profiles at addresses 100 and 200; no other layer is a terrain layer. -/
def twoTerrainLayers : Collaborators where
  layerObject := fun layer =>
    if layer = 1 then
      { isTerrainLayer := true,
        getTileSource := some (TileSource.mk (some (geographicProfileAt 100))) }
    else if layer = 2 then
      { isTerrainLayer := true,
        getTileSource := some (TileSource.mk (some (geographicProfileAt 200))) }
    else { isTerrainLayer := false, getTileSource := none }
  profileCreate := fun _ => none
  getGlobalGeodeticProfile := some (geographicProfileAt 900)
  getCubeProfile := some
    { address := 901, isOK := true, srsIsGeographic := false,
      srsIsCube := true, srsIsProjected := false }
  createEquirectangular := fun p =>
    some { address := p.address + 1000, isOK := true, srsIsGeographic := false,
           srsIsCube := false, srsIsProjected := true }

/-! ## Auxiliary facts about the vector primitives and the search loop -/

theorem toUnsigned_of_lt {n : Nat} (h : n < UINT_RANGE) : toUnsigned n = n :=
  Nat.mod_eq_of_lt h

theorem vectorInsert_length (v : List LayerPtr) (pos : Nat) (x : LayerPtr)
    (h : pos ≤ v.length) : (vectorInsert v pos x).length = v.length + 1 := by
  simp [vectorInsert, List.length_take, List.length_drop]
  omega

theorem vectorInsert_at_end (v : List LayerPtr) (x : LayerPtr) :
    vectorInsert v v.length x = v ++ [x] := by
  simp [vectorInsert]

theorem vectorInsert_getElem? (v : List LayerPtr) (pos : Nat) (x : LayerPtr)
    (h : pos ≤ v.length) : (vectorInsert v pos x)[pos]? = some x := by
  induction v generalizing pos with
  | nil =>
    have : pos = 0 := by simpa using h
    subst this
    simp [vectorInsert]
  | cons a v ih =>
    cases pos with
    | zero => simp [vectorInsert]
    | succ p =>
      have hp : p ≤ v.length := by simpa using h
      have := ih p hp
      simpa [vectorInsert] using this

theorem vectorInsert_eraseIdx (v : List LayerPtr) (pos : Nat) (x : LayerPtr)
    (h : pos ≤ v.length) : (vectorInsert v pos x).eraseIdx pos = v := by
  induction v generalizing pos with
  | nil =>
    have : pos = 0 := by simpa using h
    subst this
    simp [vectorInsert]
  | cons a v ih =>
    cases pos with
    | zero => simp [vectorInsert]
    | succ p =>
      have hp : p ≤ v.length := by simpa using h
      have := ih p hp
      simpa [vectorInsert] using this

theorem indexOf_isFirstOccurrence (layers : List LayerPtr) (layer : LayerPtr)
    (h : layer ∈ layers) : IsFirstOccurrence layers layer (layers.indexOf layer) := by
  induction layers with
  | nil => simp at h
  | cons a rest ih =>
    by_cases ha : a = layer
    · subst ha
      simp [IsFirstOccurrence]
    · have hr : layer ∈ rest := by
        rcases List.mem_cons.mp h with h1 | h1
        · exact absurd h1.symm ha
        · exact h1
      obtain ⟨h1, h2⟩ := ih hr
      have hi : (a :: rest).indexOf layer = rest.indexOf layer + 1 :=
        List.indexOf_cons_ne _ ha
      rw [hi]
      refine ⟨by simpa using h1, ?_⟩
      intro j hj
      cases j with
      | zero => simpa using ha
      | succ k =>
        have := h2 k (by omega)
        simpa using this

theorem findLoop_fst (layer : LayerPtr) (layers : List LayerPtr) (pos index : Nat) :
    (findLoop layer layers pos index).1 =
      if layer ∈ layers then some (pos + layers.indexOf layer) else none := by
  induction layers generalizing pos index with
  | nil => simp [findLoop]
  | cons a rest ih =>
    by_cases ha : a = layer
    · subst ha
      simp [findLoop]
    · have hi : (a :: rest).indexOf layer = rest.indexOf layer + 1 :=
        List.indexOf_cons_ne _ ha
      have hne : ¬ layer = a := fun e => ha e.symm
      simp only [findLoop, if_neg ha, ih, hi, List.mem_cons, hne, false_or]
      split
      · simp
        omega
      · rfl

theorem findLoop_snd (layer : LayerPtr) (layers : List LayerPtr) (pos index : Nat)
    (h : index + layers.indexOf layer < UINT_RANGE) :
    (findLoop layer layers pos index).2 = index + layers.indexOf layer := by
  induction layers generalizing pos index with
  | nil => simp [findLoop]
  | cons a rest ih =>
    by_cases ha : a = layer
    · subst ha
      simp [findLoop]
    · have hi : (a :: rest).indexOf layer = rest.indexOf layer + 1 :=
        List.indexOf_cons_ne _ ha
      rw [hi] at h
      have hu : toUnsigned (index + 1) = index + 1 := toUnsigned_of_lt (by omega)
      simp only [findLoop, if_neg ha, hu, hi]
      rw [ih (pos + 1) (index + 1) (by omega)]
      omega

/-! ## C1: `addLayer` -/

/-- C1.  For a non-null layer, `addLayer` appends the layer as the last element
of the layer list (the earlier layers stay where they were), raises the data-model
revision by exactly one, leaves the callback list alone, and makes, in registration
order, exactly one `ADD_LAYER` delivery per registered callback, carrying the new
revision, the layer, and as index the number of layers held before the call
(a count that fits the `unsigned` index variable).  For the null layer the
map is unchanged and nothing is delivered. -/
theorem addLayer_appends_and_notifies (m : Map) (layer : LayerPtr)
    (hlayer : layer ≠ nullLayer) (hfit : m._layers.length < UINT_RANGE) :
    (addLayer m layer).1._layers = m._layers ++ [layer] ∧
    (addLayer m layer).1._dataModelRevision = m._dataModelRevision + 1 ∧
    (addLayer m layer).1._mapCallbacks = m._mapCallbacks ∧
    (addLayer m layer).2 =
      m._mapCallbacks.map (fun cb =>
        (cb, ({ action := ActionType.ADD_LAYER,
                revision := m._dataModelRevision + 1,
                layer := some layer,
                firstIndex := some m._layers.length,
                secondIndex := none } : MapModelChange))) ∧
    addLayer m nullLayer = (m, []) := by
  have hidx : toUnsigned ((m._layers ++ [layer]).length - 1) = m._layers.length := by
    simp only [List.length_append, List.length_singleton, Nat.add_sub_cancel]
    exact toUnsigned_of_lt hfit
  refine ⟨?_, ?_, ?_, ?_, ?_⟩
  · simp [addLayer, hlayer]
  · simp [addLayer, hlayer]
  · simp [addLayer, hlayer]
  · simp only [addLayer, if_pos hlayer, hidx, notifyCallbacks]
  · simp [addLayer]

/-- C1 at a concrete map: two layers, two callbacks, revision 4. -/
theorem addLayer_appends_and_notifies_witness :
    (3 : LayerPtr) ≠ nullLayer ∧
    (({ _layers := [1, 2], _dataModelRevision := 4, _mapCallbacks := [10, 11] } :
        Map)._layers.length < UINT_RANGE) ∧
    (addLayer { _layers := [1, 2], _dataModelRevision := 4, _mapCallbacks := [10, 11] }
        3).1._layers = [1, 2, 3] :=
  ⟨by decide, by decide,
   (addLayer_appends_and_notifies
      { _layers := [1, 2], _dataModelRevision := 4, _mapCallbacks := [10, 11] } 3
      (by decide) (by decide)).1⟩

/-! ## C2: `insertLayer` -/

/-- C2.  For a map holding `n` layers, a non-null layer and any index,
`insertLayer` yields `n + 1` layers with the new layer at position `index` when
`index < n` and at the last position `n` when `index ≥ n`; deleting that position
gives back the previous list, so the layers held before keep their relative order;
and the data-model revision goes up by exactly one. -/
theorem insertLayer_position_and_revision (m : Map) (layer : LayerPtr) (index : Nat)
    (hlayer : layer ≠ nullLayer) :
    (insertLayer m layer index).1._layers.length = m._layers.length + 1 ∧
    (insertLayer m layer index).1._layers[min index m._layers.length]? = some layer ∧
    (insertLayer m layer index).1._layers.eraseIdx (min index m._layers.length)
      = m._layers ∧
    (insertLayer m layer index).1._dataModelRevision = m._dataModelRevision + 1 := by
  have hlist : (insertLayer m layer index).1._layers
      = vectorInsert m._layers (min index m._layers.length) layer := by
    by_cases h : index ≥ m._layers.length
    · simp [insertLayer, hlayer, h, Nat.min_eq_right h, vectorInsert_at_end]
    · have h2 : index ≤ m._layers.length := by omega
      simp [insertLayer, hlayer, h, Nat.min_eq_left h2]
  have hle : min index m._layers.length ≤ m._layers.length := Nat.min_le_right _ _
  refine ⟨?_, ?_, ?_, ?_⟩
  · rw [hlist, vectorInsert_length _ _ _ hle]
  · rw [hlist, vectorInsert_getElem? _ _ _ hle]
  · rw [hlist, vectorInsert_eraseIdx _ _ _ hle]
  · simp [insertLayer, hlayer]

/-- C2 at a concrete map, with an index past the end of the list. -/
theorem insertLayer_position_and_revision_witness :
    (9 : LayerPtr) ≠ nullLayer ∧
    (insertLayer { _layers := [1, 2], _dataModelRevision := 4, _mapCallbacks := [] }
        9 7).1._layers[min 7 2]? = some 9 :=
  ⟨by decide,
   (insertLayer_position_and_revision
      { _layers := [1, 2], _dataModelRevision := 4, _mapCallbacks := [] } 9 7
      (by decide)).2.1⟩

/-! ## C3: `removeLayer` -/

/-- C3.  For a layer that occurs in the layer list of a map (whose revision is
non-negative, as it is for every map built by the constructor, and whose layer
count fits `unsigned`), `removeLayer` deletes exactly the first occurrence of the
layer: the position `i` found is the first one holding the layer, the new list is
the old one without position `i` (one element shorter, the others in their order),
the data-model revision goes up by exactly one, and each registered callback gets
exactly one `REMOVE_LAYER` delivery with the new revision, the layer and `i`. -/
theorem removeLayer_first_occurrence (defaultRevision : Int) (m : Map)
    (layer : LayerPtr) (hlayer : layer ≠ nullLayer) (hmem : layer ∈ m._layers)
    (hrev : 0 ≤ m._dataModelRevision) (hfit : m._layers.length < UINT_RANGE) :
    IsFirstOccurrence m._layers layer (m._layers.indexOf layer) ∧
    (removeLayer defaultRevision m layer).1._layers
      = m._layers.eraseIdx (m._layers.indexOf layer) ∧
    (removeLayer defaultRevision m layer).1._layers.length + 1 = m._layers.length ∧
    (removeLayer defaultRevision m layer).1._dataModelRevision
      = m._dataModelRevision + 1 ∧
    (removeLayer defaultRevision m layer).1._mapCallbacks = m._mapCallbacks ∧
    (removeLayer defaultRevision m layer).2 =
      m._mapCallbacks.map (fun cb =>
        (cb, ({ action := ActionType.REMOVE_LAYER,
                revision := m._dataModelRevision + 1,
                layer := some layer,
                firstIndex := some (m._layers.indexOf layer),
                secondIndex := none } : MapModelChange))) := by
  have hlt : m._layers.indexOf layer < m._layers.length := List.indexOf_lt_length.mpr hmem
  have h1 : (findLoop layer m._layers 0 0).1 = some (m._layers.indexOf layer) := by
    rw [findLoop_fst, if_pos hmem, Nat.zero_add]
  have h2 : (findLoop layer m._layers 0 0).2 = m._layers.indexOf layer := by
    rw [findLoop_snd _ _ _ _ (by omega), Nat.zero_add]
  have hnonneg : m._dataModelRevision + 1 ≥ 0 := by omega
  have hres : removeLayer defaultRevision m layer =
      ({ m with _layers := m._layers.eraseIdx (m._layers.indexOf layer),
                _dataModelRevision := m._dataModelRevision + 1 },
       notifyCallbacks m._mapCallbacks
         ⟨ActionType.REMOVE_LAYER, m._dataModelRevision + 1, some layer,
          some (m._layers.indexOf layer), none⟩) := by
    simp only [removeLayer, if_pos hlayer, h1, h2, if_pos hnonneg]
  rw [hres]
  refine ⟨indexOf_isFirstOccurrence _ _ hmem, rfl, ?_, rfl, rfl, rfl⟩
  simp only [List.length_eraseIdx, if_pos hlt]
  omega

/-- C3 at a concrete map in which the layer occurs twice. -/
theorem removeLayer_first_occurrence_witness :
    (2 : LayerPtr) ≠ nullLayer ∧
    (2 : LayerPtr) ∈ ({ _layers := [1, 2, 3, 2], _dataModelRevision := 4,
                        _mapCallbacks := [10, 11] } : Map)._layers ∧
    (removeLayer (-1) { _layers := [1, 2, 3, 2], _dataModelRevision := 4,
                        _mapCallbacks := [10, 11] } 2).1._layers
      = [1, 3, 2] :=
  ⟨by decide, by decide,
   (removeLayer_first_occurrence (-1)
      { _layers := [1, 2, 3, 2], _dataModelRevision := 4, _mapCallbacks := [10, 11] } 2
      (by decide) (by decide) (by decide) (by decide)).2.1⟩

/-! ## C4: `moveLayer` -/

/-- C4.  For a map holding `n` layers (a count that fits `unsigned`), a layer
that occurs in the list, first at `oldIndex`, and `newIndex < n`, `moveLayer`
completes and leaves `n` layers with the layer at position `newIndex`; the list
without position `newIndex` afterwards equals the list without position `oldIndex`
before, so the other layers keep their relative order; the revision goes up by
exactly one; and each registered callback gets exactly one `MOVE_LAYER` delivery
with the new revision, the layer, `oldIndex` and `newIndex`. -/
theorem moveLayer_in_range (m : Map) (layer : LayerPtr) (newIndex : Nat)
    (hlayer : layer ≠ nullLayer) (hmem : layer ∈ m._layers)
    (hnew : newIndex < m._layers.length) (hfit : m._layers.length < UINT_RANGE) :
    ∃ m' deliveries,
      moveLayer m layer newIndex = some (m', deliveries) ∧
      IsFirstOccurrence m._layers layer (m._layers.indexOf layer) ∧
      m'._layers.length = m._layers.length ∧
      m'._layers[newIndex]? = some layer ∧
      m'._layers.eraseIdx newIndex = m._layers.eraseIdx (m._layers.indexOf layer) ∧
      m'._dataModelRevision = m._dataModelRevision + 1 ∧
      m'._mapCallbacks = m._mapCallbacks ∧
      deliveries =
        m._mapCallbacks.map (fun cb =>
          (cb, ({ action := ActionType.MOVE_LAYER,
                  revision := m._dataModelRevision + 1,
                  layer := some layer,
                  firstIndex := some (m._layers.indexOf layer),
                  secondIndex := some newIndex } : MapModelChange))) := by
  have hlt : m._layers.indexOf layer < m._layers.length := List.indexOf_lt_length.mpr hmem
  have h1 : (findLoop layer m._layers 0 0).1 = some (m._layers.indexOf layer) := by
    rw [findLoop_fst, if_pos hmem, Nat.zero_add]
  have h2 : (findLoop layer m._layers 0 0).2 = m._layers.indexOf layer := by
    rw [findLoop_snd _ _ _ _ (by omega), Nat.zero_add]
  have hlen : (m._layers.eraseIdx (m._layers.indexOf layer)).length + 1
      = m._layers.length := by
    simp only [List.length_eraseIdx, if_pos hlt]
    omega
  have hle : newIndex ≤ (m._layers.eraseIdx (m._layers.indexOf layer)).length := by
    omega
  refine ⟨⟨vectorInsert (m._layers.eraseIdx (m._layers.indexOf layer)) newIndex layer,
           m._dataModelRevision + 1, m._mapCallbacks⟩,
          notifyCallbacks m._mapCallbacks
            ⟨ActionType.MOVE_LAYER, m._dataModelRevision + 1, some layer,
             some (m._layers.indexOf layer), some newIndex⟩,
          ?_, ?_, ?_, ?_, ?_, rfl, rfl, rfl⟩
  · simp only [moveLayer, if_pos hlayer, h1, h2, if_pos hle]
  · exact indexOf_isFirstOccurrence _ _ hmem
  · show (vectorInsert _ newIndex layer).length = _
    rw [vectorInsert_length _ _ _ hle, hlen]
  · exact vectorInsert_getElem? _ _ _ hle
  · exact vectorInsert_eraseIdx _ _ _ hle

/-- C4 at a concrete map: the layer at position 1 is moved to the last position. -/
theorem moveLayer_in_range_witness :
    (2 : LayerPtr) ≠ nullLayer ∧
    (2 : LayerPtr) ∈ ({ _layers := [1, 2, 3, 4], _dataModelRevision := 4,
                        _mapCallbacks := [10, 11] } : Map)._layers ∧
    ∃ m' deliveries,
      moveLayer { _layers := [1, 2, 3, 4], _dataModelRevision := 4,
                  _mapCallbacks := [10, 11] } 2 3 = some (m', deliveries) ∧
      m'._layers[3]? = some 2 :=
  ⟨by decide, by decide,
   match moveLayer_in_range
      { _layers := [1, 2, 3, 4], _dataModelRevision := 4, _mapCallbacks := [10, 11] } 2 3
      (by decide) (by decide) (by decide) (by decide) with
   | ⟨m', deliveries, h, _, _, hat, _⟩ => ⟨m', deliveries, h, hat⟩⟩

/-! ## C5: `clear` -/

theorem changes_of_own_block (c : MapCallbackPtr) (changes : List MapModelChange) :
    List.map Prod.snd
      (List.filter (fun d => decide (d.1 = c))
        (List.map (fun ch => ((c, ch) : Delivery)) changes)) = changes := by
  induction changes with
  | nil => rfl
  | cons a t iht => simpa [List.filter_cons] using iht

theorem changes_of_other_block (c cb : MapCallbackPtr) (hc : c ≠ cb)
    (changes : List MapModelChange) :
    List.map Prod.snd
      (List.filter (fun d => decide (d.1 = cb))
        (List.map (fun ch => ((c, ch) : Delivery)) changes)) = [] := by
  induction changes with
  | nil => rfl
  | cons a t _ => simp [List.filter_cons, hc]

theorem changesReceivedBy_blocks (cb : MapCallbackPtr) (callbacks : List MapCallbackPtr)
    (changes : List MapModelChange) :
    changesReceivedBy cb
      (callbacks.map (fun c => changes.map (fun ch => ((c, ch) : Delivery)))).flatten
      = (List.replicate (callbacks.count cb) changes).flatten := by
  induction callbacks with
  | nil => simp [changesReceivedBy]
  | cons c rest ih =>
    have ih' : List.map Prod.snd
        (List.filter (fun d => decide (d.1 = cb))
          (List.map (fun c => List.map (fun ch => ((c, ch) : Delivery)) changes) rest).flatten)
        = (List.replicate (rest.count cb) changes).flatten := ih
    by_cases hc : c = cb
    · subst hc
      simp only [changesReceivedBy, List.map_cons, List.flatten_cons, List.filter_append,
        List.map_append, List.count_cons_self, List.replicate_succ, ih',
        changes_of_own_block]
    · have hcount : (c :: rest).count cb = rest.count cb := by
        simp [List.count_cons, hc]
      simp only [changesReceivedBy, List.map_cons, List.flatten_cons, List.filter_append,
        List.map_append, hcount, ih', changes_of_other_block c cb hc, List.nil_append]

/-- C5.  Whatever layers `l_0 .. l_{n-1}` a map holds (also none), `clear` leaves
the layer list empty and raises the data-model revision by exactly one; the
deliveries are, callback by callback in registration order, one `REMOVE_LAYER`
change per removed layer in list order, each carrying the new revision; so a
callback registered once receives exactly those `n` changes, and the total number
of deliveries is (number of callbacks) times `n`. -/
theorem clear_empties_and_notifies (m : Map) :
    (clear m).1._layers = [] ∧
    (clear m).1._dataModelRevision = m._dataModelRevision + 1 ∧
    (clear m).1._mapCallbacks = m._mapCallbacks ∧
    (clear m).2 =
      (m._mapCallbacks.map (fun cb =>
        m._layers.map (fun layer =>
          ((cb, ({ action := ActionType.REMOVE_LAYER,
                   revision := m._dataModelRevision + 1,
                   layer := some layer,
                   firstIndex := none,
                   secondIndex := none } : MapModelChange)) : Delivery)))).flatten ∧
    (∀ cb, m._mapCallbacks.count cb = 1 →
      changesReceivedBy cb (clear m).2 =
        m._layers.map (fun layer =>
          ({ action := ActionType.REMOVE_LAYER,
             revision := m._dataModelRevision + 1,
             layer := some layer,
             firstIndex := none,
             secondIndex := none } : MapModelChange)) ∧
      (changesReceivedBy cb (clear m).2).length = m._layers.length) ∧
    (clear m).2.length = m._mapCallbacks.length * m._layers.length := by
  have hflat : (clear m).2 =
      (m._mapCallbacks.map (fun c =>
        (m._layers.map (fun layer =>
          ({ action := ActionType.REMOVE_LAYER,
             revision := m._dataModelRevision + 1,
             layer := some layer,
             firstIndex := none,
             secondIndex := none } : MapModelChange))).map
          (fun ch => ((c, ch) : Delivery)))).flatten := by
    simp [clear, List.map_map, Function.comp_def]
  refine ⟨rfl, rfl, rfl, rfl, ?_, ?_⟩
  · intro cb hcb
    have h := changesReceivedBy_blocks cb m._mapCallbacks
      (m._layers.map (fun layer =>
          ({ action := ActionType.REMOVE_LAYER,
             revision := m._dataModelRevision + 1,
             layer := some layer,
             firstIndex := none,
             secondIndex := none } : MapModelChange)))
    rw [← hflat, hcb] at h
    simp only [List.replicate_one, List.flatten_cons, List.flatten_nil,
      List.append_nil] at h
    exact ⟨h, by rw [h, List.length_map]⟩
  · simp [clear, List.length_flatten, Function.comp_def]

/-! ## C6: `sync` -/

/-- C6.  `sync` returns `true` exactly when the frame is not initialized or its
recorded revision differs from the data-model revision of the map.  When it
returns `true` the frame is afterwards initialized, holds exactly the layer list of
the map (its earlier content is gone) and records the revision of the map; when it
returns `false` the frame is unchanged.  The map is only read, so a second `sync`
against the same map right after the first returns `false`. -/
theorem sync_copies_when_stale (m : Map) (frame : MapFrame) :
    ((sync m frame).1 = true ↔
      (frame._initialized = false ∨ frame._mapDataModelRevision ≠ m._dataModelRevision)) ∧
    ((sync m frame).1 = true →
      (sync m frame).2 =
        { _initialized := true,
          _mapDataModelRevision := m._dataModelRevision,
          _layers := m._layers }) ∧
    ((sync m frame).1 = false → (sync m frame).2 = frame) ∧
    (sync m (sync m frame).2).1 = false := by
  by_cases h : frame._mapDataModelRevision ≠ m._dataModelRevision ∨ frame._initialized = false
  · have hs : sync m frame =
        (true, { _initialized := true,
                 _mapDataModelRevision := m._dataModelRevision,
                 _layers := m._layers }) := by
      simp only [sync, if_pos h, List.nil_append]
    rw [hs]
    refine ⟨⟨fun _ => h.symm, fun _ => rfl⟩, fun _ => rfl, fun hf => by simp at hf, ?_⟩
    simp [sync]
  · have hs : sync m frame = (false, frame) := by
      simp only [sync, if_neg h]
    rw [hs]
    refine ⟨⟨fun hf => by simp at hf, fun hc => absurd hc.symm h⟩, fun hf => by simp at hf,
      fun _ => rfl, ?_⟩
    simp only [sync, if_neg h]

/-! ## C8: `setLayersFromMap` -/

theorem addAll_of_nonnull (m : Map) (layers : List LayerPtr)
    (h : ∀ l ∈ layers, l ≠ nullLayer) :
    (setLayersFromMap.addAll m layers).1 =
      { m with _layers := m._layers ++ layers,
               _dataModelRevision := m._dataModelRevision + layers.length } := by
  induction layers generalizing m with
  | nil => simp [setLayersFromMap.addAll]
  | cons a rest ih =>
    have ha : a ≠ nullLayer := h a (List.mem_cons_self _ _)
    have hrest : ∀ l ∈ rest, l ≠ nullLayer := fun l hl => h l (List.mem_cons_of_mem _ hl)
    simp only [setLayersFromMap.addAll]
    rw [ih _ hrest]
    simp only [addLayer, if_pos ha, List.append_assoc, List.singleton_append,
      List.length_cons, Nat.cast_add, Nat.cast_one]
    congr 1
    omega

/-- C8.  For a map `m` and another map `src` holding the (non-null) layers
`l_0 .. l_{k-1}`, `setLayersFromMap` leaves `m` holding exactly those layers in
that order whatever it held before, leaves `src` as it was, and raises the
revision of `m` by exactly `k + 1`.  For a null argument `m` ends with no layers
and its revision raised by exactly one. -/
theorem setLayersFromMap_replaces_layers (m src : Map)
    (hsrc : ∀ l ∈ src._layers, l ≠ nullLayer) :
    (setLayersFromMap m (some src)).1._layers = src._layers ∧
    (setLayersFromMap m (some src)).2.1 = some src ∧
    (setLayersFromMap m (some src)).1._dataModelRevision
      = m._dataModelRevision + (src._layers.length + 1) ∧
    (setLayersFromMap m none).1._layers = [] ∧
    (setLayersFromMap m none).1._dataModelRevision = m._dataModelRevision + 1 := by
  have hget : (getLayers src []).1 = src._layers := by simp [getLayers]
  have hadd := addAll_of_nonnull (clear m).1 src._layers hsrc
  refine ⟨?_, rfl, ?_, rfl, rfl⟩
  · simp only [setLayersFromMap, hget, hadd]
    simp [clear]
  · simp only [setLayersFromMap, hget, hadd]
    simp only [clear, Nat.cast_add, Nat.cast_one]
    omega

/-- C8 at concrete maps. -/
theorem setLayersFromMap_replaces_layers_witness :
    (∀ l ∈ ({ _layers := [7, 8], _dataModelRevision := 0, _mapCallbacks := [] } :
              Map)._layers, l ≠ nullLayer) ∧
    (setLayersFromMap
        { _layers := [1, 2, 3, 4], _dataModelRevision := 4, _mapCallbacks := [10] }
        (some { _layers := [7, 8], _dataModelRevision := 0, _mapCallbacks := [] })).1._layers
      = [7, 8] :=
  ⟨by decide,
   (setLayersFromMap_replaces_layers
      { _layers := [1, 2, 3, 4], _dataModelRevision := 4, _mapCallbacks := [10] }
      { _layers := [7, 8], _dataModelRevision := 0, _mapCallbacks := [] }
      (by decide)).1⟩

/-! ## C9: `getIndexOfLayer`, `getLayerAt`, `getNumLayers` -/

theorem getIndexOfLayer_loop_eq (layers : List LayerPtr) (layer : LayerPtr)
    (hfit : layers.length < UINT_RANGE) (fuel index : Nat)
    (hindex : index ≤ layers.length) (hfuel : layers.length - index < fuel) :
    getIndexOfLayer.loop layers layer fuel index
      = some (index + (layers.drop index).indexOf layer) := by
  induction fuel generalizing index with
  | zero => omega
  | succ fuel ih =>
    by_cases hlt : index < layers.length
    · have hdrop : layers.drop index = layers[index] :: layers.drop (index + 1) :=
        List.drop_eq_getElem_cons hlt
      have hget : layers.getD index nullLayer = layers[index] := by
        simp [List.getD_eq_getElem?_getD, List.getElem?_eq_getElem hlt]
      by_cases hx : layers[index] = layer
      · simp [getIndexOfLayer.loop, hlt, hget, hx, hdrop]
      · have hu : toUnsigned (index + 1) = index + 1 := toUnsigned_of_lt (by omega)
        have hi : (layers[index] :: layers.drop (index + 1)).indexOf layer
            = (layers.drop (index + 1)).indexOf layer + 1 := List.indexOf_cons_ne _ hx
        simp only [getIndexOfLayer.loop, if_pos hlt, hget, if_neg hx, hu, hdrop, hi]
        rw [ih (index + 1) (by omega) (by omega)]
        congr 1
        omega
    · have he : index = layers.length := by omega
      subst he
      simp [getIndexOfLayer.loop]

theorem getIndexOfLayer_eq_indexOf (m : Map) (layer : LayerPtr)
    (hfit : m._layers.length < UINT_RANGE) :
    getIndexOfLayer m layer = some (m._layers.indexOf layer) := by
  have h := getIndexOfLayer_loop_eq m._layers layer hfit (m._layers.length + 1) 0
    (Nat.zero_le _) (by omega)
  simpa [getIndexOfLayer] using h

/-- C9.  In a map whose layer count fits `unsigned`: for every layer that
occurs in the layer list, `getIndexOfLayer` returns the smallest index at which it
occurs and `getLayerAt` of that index returns the layer; for every layer that does
not occur, `getIndexOfLayer` returns `getNumLayers()`; and `getLayerAt(i)` is null
for every `i ≥ getNumLayers()` and the `i`-th layer of the list otherwise. -/
theorem getIndexOfLayer_getLayerAt_consistent (m : Map)
    (hfit : m._layers.length < UINT_RANGE) :
    (∀ layer, layer ∈ m._layers →
      ∃ i, getIndexOfLayer m layer = some i ∧
           IsFirstOccurrence m._layers layer i ∧
           getLayerAt m i = layer) ∧
    (∀ layer, layer ∉ m._layers → getIndexOfLayer m layer = some (getNumLayers m)) ∧
    (∀ i, i ≥ getNumLayers m → getLayerAt m i = nullLayer) ∧
    (∀ i, i < getNumLayers m → m._layers[i]? = some (getLayerAt m i)) := by
  have hnum : toUnsigned m._layers.length = m._layers.length := toUnsigned_of_lt hfit
  refine ⟨?_, ?_, ?_, ?_⟩
  · intro layer hmem
    have hfirst := indexOf_isFirstOccurrence m._layers layer hmem
    have hlt : m._layers.indexOf layer < m._layers.length :=
      List.indexOf_lt_length.mpr hmem
    refine ⟨m._layers.indexOf layer, getIndexOfLayer_eq_indexOf m layer hfit, hfirst, ?_⟩
    simp only [getLayerAt, hnum, if_pos hlt, List.getD_eq_getElem?_getD, hfirst.1,
      Option.getD_some]
  · intro layer hmem
    rw [getIndexOfLayer_eq_indexOf m layer hfit, getNumLayers, hnum,
      List.indexOf_eq_length.mpr hmem]
  · intro i hi
    have : ¬ i < toUnsigned m._layers.length := by
      simpa [getNumLayers] using hi
    simp only [getLayerAt, if_neg this]
  · intro i hi
    have hlt : i < m._layers.length := by
      simpa [getNumLayers, hnum] using hi
    simp only [getLayerAt, hnum, if_pos hlt, List.getD_eq_getElem?_getD,
      List.getElem?_eq_getElem hlt, Option.getD_some]

/-- C9 at a concrete map. -/
theorem getIndexOfLayer_getLayerAt_consistent_witness :
    (({ _layers := [1, 2, 3, 2], _dataModelRevision := 4, _mapCallbacks := [] } :
        Map)._layers.length < UINT_RANGE) ∧
    ∀ i, i ≥ getNumLayers
            { _layers := [1, 2, 3, 2], _dataModelRevision := 4, _mapCallbacks := [] } →
      getLayerAt { _layers := [1, 2, 3, 2], _dataModelRevision := 4, _mapCallbacks := [] } i
        = nullLayer :=
  ⟨by decide,
   (getIndexOfLayer_getLayerAt_consistent
      { _layers := [1, 2, 3, 2], _dataModelRevision := 4, _mapCallbacks := [] }
      (by decide)).2.2.1⟩

/-! ## C7: revision tracking -/

theorem addLayer_same_or_bumped (m : Map) (layer : LayerPtr) :
    (addLayer m layer).1 = m ∨
      (addLayer m layer).1._dataModelRevision = m._dataModelRevision + 1 := by
  by_cases h : layer ≠ nullLayer
  · right; simp [addLayer, h]
  · left; simp only [addLayer, if_neg h]

theorem insertLayer_same_or_bumped (m : Map) (layer : LayerPtr) (index : Nat) :
    (insertLayer m layer index).1 = m ∨
      (insertLayer m layer index).1._dataModelRevision = m._dataModelRevision + 1 := by
  by_cases h : layer ≠ nullLayer
  · right; simp [insertLayer, h]
  · left; simp only [insertLayer, if_neg h]

theorem removeLayer_same_or_bumped (defaultRevision : Int) (m : Map) (layer : LayerPtr) :
    (removeLayer defaultRevision m layer).1 = m ∨
      (removeLayer defaultRevision m layer).1._dataModelRevision
        = m._dataModelRevision + 1 := by
  unfold removeLayer
  dsimp only
  split
  · right; rfl
  · left; rfl

theorem moveLayer_same_or_bumped (m : Map) (layer : LayerPtr) (newIndex : Nat)
    (r : Map × List Delivery) (h : moveLayer m layer newIndex = some r) :
    r.1 = m ∨ r.1._dataModelRevision = m._dataModelRevision + 1 := by
  unfold moveLayer at h
  dsimp only at h
  split at h
  · split at h
    · left
      cases h
      rfl
    · split at h
      · right
        cases h
        rfl
      · cases h
  · left
    cases h
    rfl

theorem addAll_revision_le (m : Map) (layers : List LayerPtr) :
    m._dataModelRevision ≤ (setLayersFromMap.addAll m layers).1._dataModelRevision := by
  induction layers generalizing m with
  | nil => simp [setLayersFromMap.addAll]
  | cons a rest ih =>
    simp only [setLayersFromMap.addAll]
    have h1 := ih (addLayer m a).1
    rcases addLayer_same_or_bumped m a with h | h
    · rw [h] at h1 ⊢; exact h1
    · omega

theorem setLayersFromMap_revision_lt (m : Map) (map : Option Map) :
    m._dataModelRevision < (setLayersFromMap m map).1._dataModelRevision := by
  cases map with
  | none => simp [setLayersFromMap, clear]
  | some src =>
    have h := addAll_revision_le (clear m).1 (getLayers src []).1
    have hc : (clear m).1._dataModelRevision = m._dataModelRevision + 1 := rfl
    simp only [setLayersFromMap]
    omega

/-- What one public call does to the pair of map and frame: either the frame is
untouched and the map keeps its layer list and revision or gets a larger revision,
or the call is `sync` and only the frame changes. -/
theorem step_effect (defaultRevision : Int) (s s' : MapAndFrame) (op : MapOp)
    (h : step defaultRevision s op = some s') :
    (s'.frame = s.frame ∧
      ((s'.map._layers = s.map._layers ∧
          s'.map._dataModelRevision = s.map._dataModelRevision) ∨
        s.map._dataModelRevision < s'.map._dataModelRevision)) ∨
    (s'.map = s.map ∧ s'.frame = (sync s.map s.frame).2) := by
  cases op with
  | addLayer layer =>
    simp only [step, Option.some.injEq] at h
    subst h
    refine Or.inl ⟨rfl, ?_⟩
    rcases addLayer_same_or_bumped s.map layer with h | h
    · exact Or.inl ⟨by rw [h], by rw [h]⟩
    · right; show _ < (addLayer s.map layer).1._dataModelRevision; omega
  | insertLayer layer index =>
    simp only [step, Option.some.injEq] at h
    subst h
    refine Or.inl ⟨rfl, ?_⟩
    rcases insertLayer_same_or_bumped s.map layer index with h | h
    · exact Or.inl ⟨by rw [h], by rw [h]⟩
    · right; show _ < (insertLayer s.map layer index).1._dataModelRevision; omega
  | removeLayer layer =>
    simp only [step, Option.some.injEq] at h
    subst h
    refine Or.inl ⟨rfl, ?_⟩
    rcases removeLayer_same_or_bumped defaultRevision s.map layer with h | h
    · exact Or.inl ⟨by rw [h], by rw [h]⟩
    · right
      show _ < (removeLayer defaultRevision s.map layer).1._dataModelRevision
      omega
  | moveLayer layer newIndex =>
    simp only [step, Option.map_eq_some'] at h
    obtain ⟨r, hr, hs⟩ := h
    subst hs
    refine Or.inl ⟨rfl, ?_⟩
    rcases moveLayer_same_or_bumped s.map layer newIndex r hr with h | h
    · exact Or.inl ⟨by rw [h], by rw [h]⟩
    · right; show _ < r.1._dataModelRevision; omega
  | clear =>
    simp only [step, Option.some.injEq] at h
    subst h
    refine Or.inl ⟨rfl, Or.inr ?_⟩
    show _ < s.map._dataModelRevision + 1
    omega
  | setLayersFromMap map =>
    simp only [step, Option.some.injEq] at h
    subst h
    exact Or.inl ⟨rfl, Or.inr (setLayersFromMap_revision_lt s.map map)⟩
  | notifyElevationLayerVisibleChanged layer =>
    simp only [step, Option.some.injEq] at h
    subst h
    refine Or.inl ⟨rfl, Or.inr ?_⟩
    show _ < s.map._dataModelRevision + 1
    omega
  | beginUpdate =>
    simp only [step, Option.some.injEq] at h
    subst h
    exact Or.inl ⟨rfl, Or.inl ⟨rfl, rfl⟩⟩
  | endUpdate =>
    simp only [step, Option.some.injEq] at h
    subst h
    exact Or.inl ⟨rfl, Or.inl ⟨rfl, rfl⟩⟩
  | addMapCallback cb =>
    simp only [step, Option.some.injEq] at h
    subst h
    refine Or.inl ⟨rfl, Or.inl ?_⟩
    by_cases hcb : cb ≠ nullCallback
    · simp [addMapCallback, hcb]
    · simp only [addMapCallback, if_neg hcb, and_self]
  | removeMapCallback cb =>
    simp only [step, Option.some.injEq] at h
    subst h
    exact Or.inl ⟨rfl, Or.inl ⟨rfl, rfl⟩⟩
  | getDataModelRevision =>
    simp only [step, Option.some.injEq] at h
    subst h
    exact Or.inl ⟨rfl, Or.inl ⟨rfl, rfl⟩⟩
  | getLayers =>
    simp only [step, Option.some.injEq] at h
    subst h
    exact Or.inl ⟨rfl, Or.inl ⟨rfl, rfl⟩⟩
  | getNumLayers =>
    simp only [step, Option.some.injEq] at h
    subst h
    exact Or.inl ⟨rfl, Or.inl ⟨rfl, rfl⟩⟩
  | getLayerAt index =>
    simp only [step, Option.some.injEq] at h
    subst h
    exact Or.inl ⟨rfl, Or.inl ⟨rfl, rfl⟩⟩
  | getIndexOfLayer layer =>
    simp only [step, Option.some.injEq] at h
    subst h
    exact Or.inl ⟨rfl, Or.inl ⟨rfl, rfl⟩⟩
  | getLayerByName =>
    simp only [step, Option.some.injEq] at h
    subst h
    exact Or.inl ⟨rfl, Or.inl ⟨rfl, rfl⟩⟩
  | getLayerByUID =>
    simp only [step, Option.some.injEq] at h
    subst h
    exact Or.inl ⟨rfl, Or.inl ⟨rfl, rfl⟩⟩
  | getProfile =>
    simp only [step, Option.some.injEq] at h
    subst h
    exact Or.inl ⟨rfl, Or.inl ⟨rfl, rfl⟩⟩
  | sync =>
    simp only [step, Option.some.injEq] at h
    subst h
    exact Or.inr ⟨rfl, rfl⟩

theorem run_cons_some (defaultRevision : Int) (s t : MapAndFrame) (op : MapOp)
    (ops : List MapOp) (h : run defaultRevision s (op :: ops) = some t) :
    ∃ s1, step defaultRevision s op = some s1 ∧ run defaultRevision s1 ops = some t := by
  simp only [run, Option.bind_eq_some] at h
  exact h

/-- Along a run the map keeps its layer list and revision, or its revision grows. -/
theorem run_same_or_larger (defaultRevision : Int) (ops : List MapOp)
    (s t : MapAndFrame) (h : run defaultRevision s ops = some t) :
    (t.map._layers = s.map._layers ∧
        t.map._dataModelRevision = s.map._dataModelRevision) ∨
      s.map._dataModelRevision < t.map._dataModelRevision := by
  induction ops generalizing s with
  | nil =>
    simp only [run, Option.some.injEq] at h
    subst h
    exact Or.inl ⟨rfl, rfl⟩
  | cons op ops ih =>
    obtain ⟨s1, h1, h2⟩ := run_cons_some defaultRevision s t op ops h
    have hstep : (s1.map._layers = s.map._layers ∧
        s1.map._dataModelRevision = s.map._dataModelRevision) ∨
        s.map._dataModelRevision < s1.map._dataModelRevision := by
      rcases step_effect defaultRevision s s1 op h1 with ⟨_, hm⟩ | ⟨hm, _⟩
      · exact hm
      · exact Or.inl ⟨by rw [hm], by rw [hm]⟩
    rcases ih s1 h2 with ⟨hl, hr⟩ | hlt
    · rcases hstep with ⟨hl1, hr1⟩ | hlt1
      · exact Or.inl ⟨hl.trans hl1, hr.trans hr1⟩
      · right; omega
    · rcases hstep with ⟨_, hr1⟩ | hlt1
      · right; omega
      · right; omega

/-- One public call keeps the frame consistent: an initialized frame never records
a revision ahead of the map, and when it records the revision of the map it holds
the layer list of the map. -/
theorem step_keeps_frame (defaultRevision : Int) (s s' : MapAndFrame) (op : MapOp)
    (h : step defaultRevision s op = some s')
    (hinv : s.frame._initialized = true →
      s.frame._mapDataModelRevision ≤ s.map._dataModelRevision ∧
      (s.frame._mapDataModelRevision = s.map._dataModelRevision →
        s.frame._layers = s.map._layers)) :
    s'.frame._initialized = true →
      s'.frame._mapDataModelRevision ≤ s'.map._dataModelRevision ∧
      (s'.frame._mapDataModelRevision = s'.map._dataModelRevision →
        s'.frame._layers = s'.map._layers) := by
  rcases step_effect defaultRevision s s' op h with ⟨hf, hm⟩ | ⟨hm, hf⟩
  · intro hinit
    rw [hf] at hinit ⊢
    obtain ⟨hle, heq⟩ := hinv hinit
    rcases hm with ⟨hl, hr⟩ | hlt
    · rw [hl, hr]
      exact ⟨hle, heq⟩
    · exact ⟨by omega, fun he => by omega⟩
  · intro hinit
    rw [hm]
    by_cases hstale : s.frame._mapDataModelRevision ≠ s.map._dataModelRevision ∨
        s.frame._initialized = false
    · have hs : (sync s.map s.frame).2 =
          { _initialized := true,
            _mapDataModelRevision := s.map._dataModelRevision,
            _layers := s.map._layers } := by
        simp only [sync, if_pos hstale, List.nil_append]
      rw [hf, hs]
      exact ⟨le_refl _, fun _ => rfl⟩
    · have hs : (sync s.map s.frame).2 = s.frame := by
        simp only [sync, if_neg hstale]
      rw [hf, hs] at hinit ⊢
      exact hinv hinit

theorem run_keeps_frame (defaultRevision : Int) (ops : List MapOp)
    (s t : MapAndFrame) (h : run defaultRevision s ops = some t)
    (hinv : s.frame._initialized = true →
      s.frame._mapDataModelRevision ≤ s.map._dataModelRevision ∧
      (s.frame._mapDataModelRevision = s.map._dataModelRevision →
        s.frame._layers = s.map._layers)) :
    t.frame._initialized = true →
      t.frame._mapDataModelRevision ≤ t.map._dataModelRevision ∧
      (t.frame._mapDataModelRevision = t.map._dataModelRevision →
        t.frame._layers = t.map._layers) := by
  induction ops generalizing s with
  | nil =>
    simp only [run, Option.some.injEq] at h
    subst h
    exact hinv
  | cons op ops ih =>
    obtain ⟨s1, h1, h2⟩ := run_cons_some defaultRevision s t op ops h
    exact ih s1 h2 (step_keeps_frame defaultRevision s s1 op h1 hinv)

/-- C7.  Start from a newly constructed map (revision 0, no layers) observed by
a frame that is not yet initialized, run any sequence `ops` of public operations
to reach a state `s`, then any further sequence `more` to reach `t`, with
revisions counted as unbounded integers.  Then (1) the revision at `s` is
non-negative and the revision at `t` is not below that at `s`; (2) if the layer
list at `t` differs from that at `s`, the revision at `t` is strictly larger
(for `more` a single operation: every operation that changes the layer list
strictly increases the revision); (3) the frame that followed the run, once
initialized by a `sync`, holds the current layer list of the map whenever it
records the current revision of the map; (4) any frame brought up to date by a
`sync` at `s` holds the layer list of the map at `t` whenever the revision at `t`
equals the revision that frame recorded. -/
theorem revision_tracking_sound (defaultRevision : Int) (frame0 : MapFrame)
    (hframe0 : frame0._initialized = false) (ops more : List MapOp)
    (s t : MapAndFrame)
    (hs : run defaultRevision { map := Map.ctor, frame := frame0 } ops = some s)
    (ht : run defaultRevision s more = some t) :
    (0 ≤ s.map._dataModelRevision ∧
      s.map._dataModelRevision ≤ t.map._dataModelRevision) ∧
    (t.map._layers ≠ s.map._layers →
      s.map._dataModelRevision < t.map._dataModelRevision) ∧
    (t.frame._initialized = true →
      t.frame._mapDataModelRevision = t.map._dataModelRevision →
      t.frame._layers = t.map._layers) ∧
    (∀ frame : MapFrame, (sync s.map frame).1 = true →
      t.map._dataModelRevision = (sync s.map frame).2._mapDataModelRevision →
      (sync s.map frame).2._layers = t.map._layers) := by
  have h0 := run_same_or_larger defaultRevision ops _ s hs
  have h1 := run_same_or_larger defaultRevision more s t ht
  have hinit : ({ map := Map.ctor, frame := frame0 } : MapAndFrame).frame._initialized = true →
      frame0._mapDataModelRevision ≤ Map.ctor._dataModelRevision ∧
      (frame0._mapDataModelRevision = Map.ctor._dataModelRevision →
        frame0._layers = Map.ctor._layers) := by
    intro hi
    rw [hframe0] at hi
    cases hi
  have hfs := run_keeps_frame defaultRevision ops _ s hs hinit
  have hft := run_keeps_frame defaultRevision more s t ht hfs
  have hz : ({ map := Map.ctor, frame := frame0 } : MapAndFrame).map._dataModelRevision = 0 := rfl
  refine ⟨⟨?_, ?_⟩, ?_, ?_, ?_⟩
  · rcases h0 with ⟨_, hr⟩ | hlt <;> omega
  · rcases h1 with ⟨_, hr⟩ | hlt <;> omega
  · intro hne
    rcases h1 with ⟨hl, _⟩ | hlt
    · exact absurd hl hne
    · exact hlt
  · intro hi he
    exact (hft hi).2 he
  · intro frame hsync hrev
    have hstale : frame._mapDataModelRevision ≠ s.map._dataModelRevision ∨
        frame._initialized = false := by
      by_contra hc
      simp [sync, hc] at hsync
    have hsf : (sync s.map frame).2 =
        { _initialized := true,
          _mapDataModelRevision := s.map._dataModelRevision,
          _layers := s.map._layers } := by
      simp only [sync, if_pos hstale, List.nil_append]
    rw [hsf] at hrev ⊢
    rcases h1 with ⟨hl, _⟩ | hlt
    · exact hl.symm
    · exact absurd hrev (by simp only; omega)

/-- C7 on a concrete run: two layers are added with a `sync` in between, then a
layer is removed and a batch update is opened. -/
theorem revision_tracking_sound_witness :
    (({ _initialized := false, _mapDataModelRevision := -1, _layers := [] } :
        MapFrame)._initialized = false) ∧
    run (-1)
        { map := Map.ctor,
          frame := { _initialized := false, _mapDataModelRevision := -1, _layers := [] } }
        [MapOp.addLayer 1, MapOp.sync, MapOp.addLayer 2]
      = some { map := { _layers := [1, 2], _dataModelRevision := 2, _mapCallbacks := [] },
               frame := { _initialized := true, _mapDataModelRevision := 1,
                          _layers := [1] } } ∧
    run (-1)
        { map := { _layers := [1, 2], _dataModelRevision := 2, _mapCallbacks := [] },
          frame := { _initialized := true, _mapDataModelRevision := 1, _layers := [1] } }
        [MapOp.removeLayer 1, MapOp.beginUpdate]
      = some { map := { _layers := [2], _dataModelRevision := 3, _mapCallbacks := [] },
               frame := { _initialized := true, _mapDataModelRevision := 1,
                          _layers := [1] } } ∧
    (2 : Int) ≤ 3 :=
  ⟨rfl, by decide, by decide,
   (revision_tracking_sound (-1)
      { _initialized := false, _mapDataModelRevision := -1, _layers := [] } rfl
      [MapOp.addLayer 1, MapOp.sync, MapOp.addLayer 2]
      [MapOp.removeLayer 1, MapOp.beginUpdate]
      { map := { _layers := [1, 2], _dataModelRevision := 2, _mapCallbacks := [] },
        frame := { _initialized := true, _mapDataModelRevision := 1, _layers := [1] } }
      { map := { _layers := [2], _dataModelRevision := 3, _mapCallbacks := [] },
        frame := { _initialized := true, _mapDataModelRevision := 1, _layers := [1] } }
      (by decide) (by decide)).1.2⟩

/-! ## C10: the index reported with `ADD_LAYER` -/

/-- The index that `addLayer` reports with `ADD_LAYER` is the position of the
added layer: for a non-null layer and a layer count that fits `unsigned`,
`getLayerAt` of the number of layers held before the call returns the layer. -/
theorem addLayer_reported_index_holds_layer (m : Map) (layer : LayerPtr)
    (hlayer : layer ≠ nullLayer) (hfit : m._layers.length + 1 < UINT_RANGE) :
    getLayerAt (addLayer m layer).1 m._layers.length = layer := by
  have hl : (addLayer m layer).1._layers = m._layers ++ [layer] := by
    simp [addLayer, hlayer]
  have hn : toUnsigned (m._layers.length + 1) = m._layers.length + 1 :=
    toUnsigned_of_lt hfit
  simp [getLayerAt, hl, hn]

/-- C10 (the code departs from the claim).  On the empty map with one
callback, `insertLayer(layer 1, index 5)` stores the layer at position 0 but
delivers `ADD_LAYER` with index 5, and `getLayerAt(5)` on the resulting map is
null, not the added layer. -/
theorem insertLayer_reports_requested_index :
    (insertLayer { _layers := [], _dataModelRevision := 0, _mapCallbacks := [10] } 1 5).1._layers
      = [1] ∧
    (insertLayer { _layers := [], _dataModelRevision := 0, _mapCallbacks := [10] } 1 5).2
      = [(10, { action := ActionType.ADD_LAYER, revision := 1, layer := some 1,
                firstIndex := some 5, secondIndex := none })] ∧
    getLayerAt
      (insertLayer { _layers := [], _dataModelRevision := 0, _mapCallbacks := [10] } 1 5).1 5
      = nullLayer ∧
    getLayerAt
      (insertLayer { _layers := [], _dataModelRevision := 0, _mapCallbacks := [10] } 1 5).1 0
      = 1 := by
  decide

/-! ## C11: the search over the tile sources -/

theorem searchTileSources_append (env : Collaborators) (front back : List LayerPtr)
    (p : Option Profile) :
    calculateProfile.searchTileSources env (front ++ back) p
      = calculateProfile.searchTileSources env back
          (calculateProfile.searchTileSources env front p) := by
  induction front generalizing p with
  | nil => rfl
  | cons layer rest ih =>
    simp only [List.cons_append, calculateProfile.searchTileSources]
    split
    · exact ih _
    · exact ih _

/-- The loop of lines 673-680 has no `break`: when the last layer of the list is
a terrain layer with a tile source, the loop ends with the profile of that tile
source, whatever the layers before it are. -/
theorem searchTileSources_last_wins (env : Collaborators) (front : List LayerPtr)
    (layer : LayerPtr) (tileSource : TileSource) (p : Option Profile)
    (h : calculateProfile.tileSourceOf env layer = some tileSource) :
    calculateProfile.searchTileSources env (front ++ [layer]) p
      = tileSource.getProfile := by
  rw [searchTileSources_append]
  simp only [calculateProfile.searchTileSources, h]

/-- C11 (the code departs from the claim).  A geocentric map without a
user-configured profile holds the terrain layers 1 and 2, in that order, whose tile
sources have the geographic profiles at addresses 100 and 200.  No user profile is
accepted, the first terrain layer with a tile source is layer 1, yet
`calculateProfile` ends with the profile of layer 2; with layer 1 alone it ends
with the profile of layer 1, so the later layer does affect the result. -/
theorem calculateProfile_adopts_last_tile_source :
    calculateProfile.acceptUserProfile twoTerrainLayers
      { coordSysType := CoordinateSystemType.CSTYPE_GEOCENTRIC, profile := none } = none ∧
    calculateProfile.tileSourceOf twoTerrainLayers 1
      = some { getProfile := some (geographicProfileAt 100) } ∧
    calculateProfile twoTerrainLayers
      { coordSysType := CoordinateSystemType.CSTYPE_GEOCENTRIC, profile := none }
      { _layers := [1, 2], _dataModelRevision := 2, _mapCallbacks := [] } none
      = some (geographicProfileAt 200) ∧
    calculateProfile twoTerrainLayers
      { coordSysType := CoordinateSystemType.CSTYPE_GEOCENTRIC, profile := none }
      { _layers := [1], _dataModelRevision := 1, _mapCallbacks := [] } none
      = some (geographicProfileAt 100) ∧
    geographicProfileAt 200 ≠ geographicProfileAt 100 := by
  decide

/-! ## C12: the kind of profile `calculateProfile` ends with -/

/-- The loop either leaves `_profile` as it was or ends with the profile of the
tile source of one of the terrain layers it walked over. -/
theorem searchTileSources_origin (env : Collaborators) (layers : List LayerPtr)
    (p : Option Profile) :
    calculateProfile.searchTileSources env layers p = p ∨
    ∃ layer ∈ layers, ∃ tileSource,
      calculateProfile.tileSourceOf env layer = some tileSource ∧
      calculateProfile.searchTileSources env layers p = tileSource.getProfile := by
  induction layers generalizing p with
  | nil => exact Or.inl rfl
  | cons layer rest ih =>
    cases hts : calculateProfile.tileSourceOf env layer with
    | none =>
      simp only [calculateProfile.searchTileSources, hts]
      rcases ih p with h | ⟨l, hl, ts, h1, h2⟩
      · exact Or.inl h
      · exact Or.inr ⟨l, List.mem_cons_of_mem _ hl, ts, h1, h2⟩
    | some tileSource =>
      simp only [calculateProfile.searchTileSources, hts]
      rcases ih tileSource.getProfile with h | ⟨l, hl, ts, h1, h2⟩
      · exact Or.inr ⟨layer, List.mem_cons_self _ _, tileSource, hts, h⟩
      · exact Or.inr ⟨l, List.mem_cons_of_mem _ hl, ts, h1, h2⟩

/-- An accepted user profile is the user profile, is OK, and passes the SRS test
of the coordinate-system type. -/
theorem acceptUserProfile_some (env : Collaborators) (opts : MapOptions) (p : Profile)
    (h : calculateProfile.acceptUserProfile env opts = some p) :
    calculateProfile.userProfile env opts = some p ∧ p.isOK = true ∧
    (opts.coordSysType = CoordinateSystemType.CSTYPE_GEOCENTRIC →
      p.srsIsGeographic = true) ∧
    (opts.coordSysType = CoordinateSystemType.CSTYPE_GEOCENTRIC_CUBE →
      p.srsIsCube = true) ∧
    (opts.coordSysType = CoordinateSystemType.CSTYPE_PROJECTED →
      p.srsIsProjected = true) := by
  unfold calculateProfile.acceptUserProfile at h
  cases hu : calculateProfile.userProfile env opts with
  | none => simp [hu] at h
  | some u =>
    cases hc : opts.coordSysType <;>
      simp only [hu, hc, Bool.and_eq_true, ite_eq_left_iff, Option.ite_none_right_eq_some,
        Option.some.injEq] at h <;>
      obtain ⟨⟨h1, h2⟩, h3⟩ := h <;> subst h3 <;> simp [h1, h2]

/-- The value of `_profile` on which lines 685-708 work, when the method is
entered with no profile. -/
theorem calculateProfile_none_eq (env : Collaborators) (opts : MapOptions) (m : Map) :
    calculateProfile env opts m none =
      calculateProfile.ensureKind env opts
        (match calculateProfile.acceptUserProfile env opts with
         | some p => some p
         | none => calculateProfile.searchTileSources env m._layers none) := rfl

/-- Before lines 685-708 the profile, if there is one, is a candidate. -/
theorem candidate_before_ensureKind (env : Collaborators) (opts : MapOptions) (m : Map)
    (p : Profile)
    (h : (match calculateProfile.acceptUserProfile env opts with
          | some q => some q
          | none => calculateProfile.searchTileSources env m._layers none) = some p) :
    calculateProfile.IsCandidate env opts m p := by
  cases ha : calculateProfile.acceptUserProfile env opts with
  | some q =>
    rw [ha] at h
    simp only [Option.some.injEq] at h
    subst h
    have := acceptUserProfile_some env opts q ha
    exact Or.inl ⟨this.1, this.2.1⟩
  | none =>
    rw [ha] at h
    simp only at h
    rcases searchTileSources_origin env m._layers none with h0 | ⟨l, hl, ts, h1, h2⟩
    · rw [h0] at h
      cases h
    · rw [h2] at h
      exact Or.inr ⟨l, hl, ts, h1, h⟩

theorem ensureKind_geocentric (env : Collaborators) (opts : MapOptions)
    (x : Option Profile)
    (hc : opts.coordSysType = CoordinateSystemType.CSTYPE_GEOCENTRIC) :
    calculateProfile.ensureKind env opts x =
      if validWithSRS Profile.srsIsGeographic x = true then x
      else env.getGlobalGeodeticProfile := by
  by_cases hv : validWithSRS Profile.srsIsGeographic x = true <;>
    simp [calculateProfile.ensureKind, hc, hv]

theorem ensureKind_cube (env : Collaborators) (opts : MapOptions)
    (x : Option Profile)
    (hc : opts.coordSysType = CoordinateSystemType.CSTYPE_GEOCENTRIC_CUBE) :
    calculateProfile.ensureKind env opts x =
      if validWithSRS Profile.srsIsCube x = true then x else env.getCubeProfile := by
  by_cases hv : validWithSRS Profile.srsIsCube x = true <;>
    simp [calculateProfile.ensureKind, hc, hv]

theorem ensureKind_projected (env : Collaborators) (opts : MapOptions)
    (x : Option Profile)
    (hc : opts.coordSysType = CoordinateSystemType.CSTYPE_PROJECTED) :
    calculateProfile.ensureKind env opts x =
      match x with
      | none => none
      | some p =>
        if p.srsIsGeographic = true then env.createEquirectangular p
        else if p.srsIsProjected = true then some p
        else none := by
  cases x with
  | none => simp [calculateProfile.ensureKind, hc, validWithSRS]
  | some p =>
    by_cases hg : p.srsIsGeographic = true <;> by_cases hp : p.srsIsProjected = true <;>
      simp [calculateProfile.ensureKind, hc, validWithSRS, hg, hp]

/-- C12.  A profile that is already established is kept.  Otherwise, entered
with no profile:
* on a geocentric map, whatever the user profile and the layers, the method ends
  with the registry's global-geodetic profile or with a candidate profile (the
  user's, which must be OK, or that of a layer's tile source) whose SRS is
  geographic, and the result is non-null when the registry profile is; a user
  profile whose SRS is not geographic is not accepted;
* on a geocentric-cube map it ends with the registry's cube profile or with a
  candidate profile whose SRS is cube;
* on a projected map it ends with no profile, or with a candidate profile whose
  SRS is projected, or with what the equirectangular construction returns for a
  candidate profile whose SRS is geographic. -/
theorem calculateProfile_profile_kind (env : Collaborators) (opts : MapOptions)
    (m : Map) :
    (∀ p, calculateProfile env opts m (some p) = some p) ∧
    (opts.coordSysType = CoordinateSystemType.CSTYPE_GEOCENTRIC →
      (env.getGlobalGeodeticProfile ≠ none → calculateProfile env opts m none ≠ none) ∧
      (calculateProfile env opts m none = env.getGlobalGeodeticProfile ∨
        ∃ p, calculateProfile env opts m none = some p ∧ p.srsIsGeographic = true ∧
          calculateProfile.IsCandidate env opts m p) ∧
      (∀ u, calculateProfile.userProfile env opts = some u → u.srsIsGeographic = false →
        calculateProfile.acceptUserProfile env opts = none)) ∧
    (opts.coordSysType = CoordinateSystemType.CSTYPE_GEOCENTRIC_CUBE →
      calculateProfile env opts m none = env.getCubeProfile ∨
        ∃ p, calculateProfile env opts m none = some p ∧ p.srsIsCube = true ∧
          calculateProfile.IsCandidate env opts m p) ∧
    (opts.coordSysType = CoordinateSystemType.CSTYPE_PROJECTED →
      calculateProfile env opts m none = none ∨
      (∃ p, calculateProfile env opts m none = some p ∧ p.srsIsProjected = true ∧
        calculateProfile.IsCandidate env opts m p) ∨
      (∃ g, g.srsIsGeographic = true ∧ calculateProfile.IsCandidate env opts m g ∧
        calculateProfile env opts m none = env.createEquirectangular g)) := by
  have hcand := candidate_before_ensureKind env opts m
  rw [calculateProfile_none_eq]
  generalize (match calculateProfile.acceptUserProfile env opts with
    | some p => some p
    | none => calculateProfile.searchTileSources env m._layers none) = x at hcand ⊢
  refine ⟨fun p => rfl, ?_, ?_, ?_⟩
  · intro hc
    rw [ensureKind_geocentric env opts x hc]
    refine ⟨?_, ?_, ?_⟩
    · intro hreg
      cases x with
      | none => simpa [validWithSRS] using hreg
      | some p =>
        by_cases hg : p.srsIsGeographic = true
        · simp [validWithSRS, hg]
        · simpa [validWithSRS, hg] using hreg
    · cases x with
      | none => left; simp [validWithSRS]
      | some p =>
        by_cases hg : p.srsIsGeographic = true
        · right
          exact ⟨p, by simp [validWithSRS, hg], hg, hcand p rfl⟩
        · left; simp [validWithSRS, hg]
    · intro u hu hgeo
      simp [calculateProfile.acceptUserProfile, hu, hc, hgeo]
  · intro hc
    rw [ensureKind_cube env opts x hc]
    cases x with
    | none => left; simp [validWithSRS]
    | some p =>
      by_cases hg : p.srsIsCube = true
      · right
        exact ⟨p, by simp [validWithSRS, hg], hg, hcand p rfl⟩
      · left; simp [validWithSRS, hg]
  · intro hc
    rw [ensureKind_projected env opts x hc]
    cases x with
    | none => exact Or.inl rfl
    | some p =>
      by_cases hg : p.srsIsGeographic = true
      · right; right
        exact ⟨p, hg, hcand p rfl, by simp [hg]⟩
      · by_cases hp : p.srsIsProjected = true
        · right; left
          exact ⟨p, by simp [hg, hp], hp, hcand p rfl⟩
        · left; simp [hg, hp]

/-- C12 on a concrete geocentric map: the state before, the options and the
registry are those of the example heap, and the result is the geographic profile
of a tile source. -/
theorem calculateProfile_profile_kind_witness :
    ({ coordSysType := CoordinateSystemType.CSTYPE_GEOCENTRIC, profile := none } :
        MapOptions).coordSysType = CoordinateSystemType.CSTYPE_GEOCENTRIC ∧
    twoTerrainLayers.getGlobalGeodeticProfile ≠ none ∧
    calculateProfile twoTerrainLayers
      { coordSysType := CoordinateSystemType.CSTYPE_GEOCENTRIC, profile := none }
      { _layers := [1, 2], _dataModelRevision := 2, _mapCallbacks := [] } none ≠ none :=
  ⟨rfl, by decide,
   ((calculateProfile_profile_kind twoTerrainLayers
      { coordSysType := CoordinateSystemType.CSTYPE_GEOCENTRIC, profile := none }
      { _layers := [1, 2], _dataModelRevision := 2, _mapCallbacks := [] }).2.1 rfl).1
     (by decide)⟩

/-! ## C13: the position at which `moveLayer` re-inserts -/

/-- When the layer is found and `newIndex` is at least the number of layers, the
position of the re-insertion lies past the end of the shortened list and
`moveLayer` runs into the undefined behaviour of `std::vector::insert`. -/
theorem moveLayer_past_end (m : Map) (layer : LayerPtr) (newIndex : Nat)
    (hlayer : layer ≠ nullLayer) (hmem : layer ∈ m._layers)
    (hnew : m._layers.length ≤ newIndex) :
    (m._layers.eraseIdx (m._layers.indexOf layer)).length < newIndex ∧
    moveLayer m layer newIndex = none := by
  have hlt : m._layers.indexOf layer < m._layers.length := List.indexOf_lt_length.mpr hmem
  have h1 : (findLoop layer m._layers 0 0).1 = some (m._layers.indexOf layer) := by
    rw [findLoop_fst, if_pos hmem, Nat.zero_add]
  have hlen : (m._layers.eraseIdx (m._layers.indexOf layer)).length + 1
      = m._layers.length := by
    simp only [List.length_eraseIdx, if_pos hlt]
    omega
  have hgt : ¬ newIndex ≤ (m._layers.eraseIdx (m._layers.indexOf layer)).length := by
    omega
  refine ⟨by omega, ?_⟩
  simp only [moveLayer, if_pos hlayer, h1, if_neg hgt]

/-- C13 (the code departs from the claim).  On the map holding layers 1 and 2,
`moveLayer(layer 1, newIndex 2)` finds the layer at position 0 and erases it; the
shortened list has length 1, the insertion position 2 is past its end, and the
call does not complete.  With `newIndex 1` the same call completes and the map
still holds two layers. -/
theorem moveLayer_inserts_past_end :
    (List.eraseIdx [1, 2] (List.indexOf 1 [1, 2])).length = 1 ∧
    ¬ (2 ≤ (List.eraseIdx [1, 2] (List.indexOf 1 [1, 2])).length) ∧
    moveLayer { _layers := [1, 2], _dataModelRevision := 0, _mapCallbacks := [10] } 1 2
      = none ∧
    (moveLayer { _layers := [1, 2], _dataModelRevision := 0, _mapCallbacks := [10] } 1 1).map
        (fun r => r.1._layers)
      = some [2, 1] := by
  decide

end osgEarth
